import Mathlib

/-!
Verification of the CLEAR Global scraper pipeline
(`src/hdx/scraper/clearglobal/pipeline.py`).

The pipeline is embedded shallowly:
* the external state mapping (a Python dict of watermark timestamps) is an
  association list `List (String × Int)`; timestamps returned by `parse_date`
  are modelled as integers (only their order matters);
* the remote API is a parameter: for the location index a
  `Option (List Location)` (`none` models a JSON body without a `"data"`
  key, which in Python raises `KeyError`), for the per-country data a
  function `pages : Nat → List Row` giving the rows of each page, and at the
  `add_resources` level a function `fetch : Nat → List Row` standing for
  `get_pages` applied to each aggregation level;
* fallible Python code (KeyError on dict lookups) returns `Except String`;
* the unbounded `while True` paging loop is run on explicit fuel, and
  termination is the statement that enough fuel exists;
* configuration templates (`description`, `viz_url`) and `slugify` are
  opaque function parameters, as they are external collaborators.
-/

set_option maxRecDepth 100000

namespace ClearGlobal

/-- One record of the remote location index: the `location_code` (ISO3)
and `date_creation` fields requested by `get_locations`. -/
structure Location where
  location_code : String
  date_creation : Int
deriving DecidableEq

/-- One data row as consumed by `add_resources`: only the fields the code
reads (`source`, `datetime_published`, `representivity_rating`). -/
structure Row where
  source : String
  datetime_published : Int
  representivity_rating : String
deriving DecidableEq

/-- A resource as produced by `generate_resource_from_rows`: the
`resourcedata` fields plus the row data written to the file. -/
structure Resource where
  name : String
  description : String
  p_coded : Bool
  rows : List Row
deriving DecidableEq

/-- The dataset fields touched by `add_resources` / `generate_dataset`. -/
structure Dataset where
  name : String
  title : String
  groups : List String
  resources : List Resource
  time_period : Option (Int × Int)
  methodology : Option String
  methodology_other : Option String
  notes : Option String
  tags : List String
  subnational : Bool
  dataset_preview : Bool
  custom_viz : Option String
deriving DecidableEq

/-- Lookup in the state dict (Python `state[k]` / `state.get(k, …)`). -/
def stateFind : List (String × Int) → String → Option Int
  | [], _ => none
  | (k, v) :: rest, key => if k = key then some v else stateFind rest key

/-- In-place update of the state dict (Python `state[k] = v`). -/
def stateSet : List (String × Int) → String → Int → List (String × Int)
  | [], key, v => [(key, v)]
  | (k, w) :: rest, key, v =>
      if k = key then (k, v) :: rest else (k, w) :: stateSet rest key v

/-- The loop body of `Pipeline.get_locations`: for each location compare
`last_modified > state.get(countryiso3, state["DEFAULT"])`.  Python
evaluates the argument `state["DEFAULT"]` eagerly, before `.get` consults
the key itself, so the lookup of `"DEFAULT"` happens for every location
and its absence is a `KeyError` even when the location has its own
watermark. -/
def get_locationsAux :
    List Location → List (String × Int) →
    Except String (List String × List (String × Int))
  | [], state => .ok ([], state)
  | loc :: rest, state =>
    match stateFind state "DEFAULT" with
    | none => .error "KeyError: DEFAULT"
    | some d =>
      if (stateFind state loc.location_code).getD d < loc.date_creation then
        match get_locationsAux rest
            (stateSet state loc.location_code loc.date_creation) with
        | .error e => .error e
        | .ok (codes, st) => .ok (loc.location_code :: codes, st)
      else
        get_locationsAux rest state

/-- `Pipeline.get_locations`.  `json` is the `"data"` member of the
response (`none` when the key is missing, in which case Python's
`json["data"]` raises `KeyError`).  Returns the appended
`location_code`s of the changed locations together with the final state. -/
def get_locations (json : Option (List Location))
    (state : List (String × Int)) :
    Except String (List String × List (String × Int)) :=
  match json with
  | none => .error "KeyError: data"
  | some locations => get_locationsAux locations state

/-- The `while True` loop of `Pipeline.get_pages`, run on explicit fuel.
Returns the accumulated rows together with the number of page requests
made.  Each iteration downloads page `page`, extends `all_data`, and
returns when `len(data) != 500 or len(data) == 0`. -/
def get_pagesAux (pages : Nat → List Row) : Nat → Nat → List Row × Nat
  | 0, _ => ([], 0)
  | fuel + 1, page =>
    let data := pages page
    if data.length ≠ 500 ∨ data.length = 0 then (data, 1)
    else
      let r := get_pagesAux pages fuel (page + 1)
      (data ++ r.1, r.2 + 1)

/-- `Pipeline.get_pages`: start at page 0. -/
def get_pages (pages : Nat → List Row) (fuel : Nat) : List Row × Nat :=
  get_pagesAux pages fuel 0

/-- The page decomposition of a remote that holds the finite row list
`rows`: page `n` holds rows `500*n` to `500*n + 499`. -/
def pagesOf (rows : List Row) (n : Nat) : List Row :=
  (rows.drop (500 * n)).take 500

/-- `hdx.utilities.dateparse.default_date` (earliest possible datetime,
year 1), as a sentinel integer timestamp. -/
def default_date : Int := -62135596800

/-- `hdx.utilities.dateparse.default_enddate` (latest possible datetime,
year 9999), as a sentinel integer timestamp. -/
def default_enddate : Int := 253402214400

/-- Insertion into a Python `set`, modelled on lists as
append-if-absent (iteration order of the Python set is irrelevant to the
program's observable behaviour, see the permutation lemmas below). -/
def addSet {α : Type} [DecidableEq α] (s : List α) (x : α) : List α :=
  if x ∈ s then s else s ++ [x]

/-- The running aggregate of the `add_resources` row loop:
`earliest_start_date`, `latest_end_date`, `dataset_sources`,
`rep_rating_strs`. -/
structure Agg where
  earliest_start_date : Int
  latest_end_date : Int
  dataset_sources : List String
  rep_rating_strs : List String
deriving DecidableEq

/-- Initial aggregate of `add_resources`. -/
def initAgg : Agg :=
  { earliest_start_date := default_enddate
    latest_end_date := default_date
    dataset_sources := []
    rep_rating_strs := [] }

/-- The body of the `for row in data` loop of `add_resources`. -/
def foldRow (a : Agg) (row : Row) : Agg :=
  { earliest_start_date :=
      if row.datetime_published < a.earliest_start_date then
        row.datetime_published
      else a.earliest_start_date
    latest_end_date :=
      if a.latest_end_date < row.datetime_published then
        row.datetime_published
      else a.latest_end_date
    dataset_sources := addSet a.dataset_sources row.source
    rep_rating_strs := addSet a.rep_rating_strs row.representivity_rating }

/-- `Pipeline.representivity_to_int`; `none` models a `KeyError` on an
unknown rating. -/
def representivity_to_int : String → Option Nat
  | "very_high" => some 0
  | "high" => some 1
  | "moderate" => some 2
  | "low" => some 3
  | "very_low" => some 4
  | _ => none

/-- `Pipeline.representivity_mapping`.  The default branch is unreachable
in the program: every key looked up comes out of `representivity_to_int`,
whose range is 0–4. -/
def representivity_mapping : Nat → String
  | 0 => "Census"
  | 1 => "Representative survey at 95% confidence level and a 10% margin of error, or better"
  | 2 => "Representative survey, but less than 95% confidence level and/or greater than a 10% margin of error"
  | 3 => "Non-representative/indicative survey"
  | 4 => "Small scale, non-representative survey"
  | _ => ""

/-- The `for rep_rating_str in rep_rating_strs` lookup loop: collect
`representivity_to_int` of every rating, failing (KeyError) on the first
unknown one. -/
def lookupRatings : List String → Option (List Nat)
  | [] => some []
  | r :: rest =>
    match representivity_to_int r with
    | none => none
    | some i =>
      match lookupRatings rest with
      | none => none
      | some is => some (i :: is)

/-- Python `sorted` on a list of integer ranks. -/
def sortNats (l : List Nat) : List Nat :=
  List.insertionSort (fun a b => a ≤ b) l

/-- The methodology derivation of `add_resources`: map the distinct
ratings to ranks, sort ascending, map back to the descriptive texts, join
with `"; "`; the result is the pair
(`dataset["methodology"]`, `dataset["methodology_other"]`). -/
def methodology_fields (rep_rating_strs : List String) :
    Except String (String × Option String) :=
  match lookupRatings rep_rating_strs with
  | none => .error "KeyError: representivity_to_int"
  | some rep_rating_ints =>
    let methodology_str :=
      String.intercalate "; "
        ((sortNats rep_rating_ints).map representivity_mapping)
    if methodology_str = "Census" then .ok ("Census", none)
    else .ok ("Other", some methodology_str)

/-- The resource built by `add_resources` for one aggregation level
(`resourcedata` plus the rows handed to `generate_resource_from_rows`).
Python builds the description as `"".join` of the pieces, i.e. string
concatenation. -/
def mkResource (countryiso3 : String) (aggregation : Nat)
    (data : List Row) : Resource :=
  let filename :=
    "clearglobal_language_use_" ++ countryiso3 ++ "_admin" ++
      toString aggregation ++ ".csv"
  if aggregation ≠ 0 then
    { name := filename
      description :=
        ("Languages used in " ++ countryiso3) ++
          (" by Admin " ++ toString aggregation)
      p_coded := true
      rows := data }
  else
    { name := filename
      description := "Languages used in " ++ countryiso3
      p_coded := false
      rows := data }

/-- One iteration of the `for aggregation in range(0, 3)` loop of
`add_resources`, threading the aggregate, the emitted resources and the
`has_resources` flag.  `fetch l` stands for
`self.get_pages(countryiso3, l)`. -/
def processLevel (fetch : Nat → List Row) (countryiso3 : String)
    (st : Agg × List Resource × Bool) (aggregation : Nat) :
    Agg × List Resource × Bool :=
  let data := fetch aggregation
  if data = [] then st
  else
    (data.foldl foldRow st.1,
     st.2.1 ++ [mkResource countryiso3 aggregation data],
     true)

/-- The rows of all three aggregation levels, in loop order. -/
def allRows (fetch : Nat → List Row) : List Row :=
  (([0, 1, 2] : List Nat).map fetch).flatten

/-- The aggregate that the `add_resources` loop computes over the union
of the rows of the three aggregation levels. -/
def aggOf (fetch : Nat → List Row) : Agg :=
  (allRows fetch).foldl foldRow initAgg

/-- `Pipeline.add_resources`.  Mutating the dataset is modelled by
returning the new dataset; the second component is the Python return
value, which is `None` both on the early no-data returns and on the
fall-through success path (the `Optional[datetime]` annotation
notwithstanding).  `notesTemplate` is the configured `description`
template applied to `countryname` and the comma-joined sources. -/
def add_resources (fetch : Nat → List Row)
    (countryiso3 countryname : String)
    (notesTemplate : String → String → String)
    (dataset : Dataset) : Except String (Dataset × Option Int) :=
  let st := (([0, 1, 2] : List Nat)).foldl (processLevel fetch countryiso3)
      (initAgg, [], false)
  let agg := st.1
  let has_resources := st.2.2
  let dataset := { dataset with resources := dataset.resources ++ st.2.1 }
  if has_resources = false then .ok (dataset, none)
  else
    let dataset := { dataset with
      time_period := some (agg.earliest_start_date, agg.latest_end_date) }
    if agg.rep_rating_strs.length = 0 then .ok (dataset, none)
    else
      match methodology_fields agg.rep_rating_strs with
      | .error e => .error e
      | .ok (m, mo) =>
        let dataset := { dataset with
          methodology := some m
          methodology_other := mo
          notes := some (notesTemplate countryname
            (String.intercalate ", " agg.dataset_sources)) }
        .ok (dataset, none)

/-- `Pipeline.generate_dataset`.  `registry` models the country registry
(`Country.get_country_name_from_iso3`, returning `none` for an unknown
ISO3, and `add_country_location`, which raises `HDXError` exactly for
those unknown ISO3s — the `except` branch logs and returns `None`).
`slug` models `slugify`; `vizTemplate` the configured `viz_url`
template. -/
def generate_dataset (registry : String → Option String)
    (slug : String → String) (fetch : Nat → List Row)
    (notesTemplate : String → String → String)
    (vizTemplate : String → String)
    (countryiso3 : String) : Except String (Option Dataset) :=
  let countryname := registry countryiso3
  let dataset_title :=
    (match countryname with | some n => n | none => "None") ++ ": Languages"
  let dataset : Dataset :=
    { name := slug dataset_title
      title := dataset_title
      groups := []
      resources := []
      time_period := none
      methodology := none
      methodology_other := none
      notes := none
      tags := []
      subnational := false
      dataset_preview := true
      custom_viz := none }
  match countryname with
  | none => .ok none
  | some cname =>
    let dataset := { dataset with groups := [countryiso3] }
    match add_resources fetch countryiso3 cname notesTemplate dataset with
    | .error e => .error e
    | .ok (dataset, _) =>
      let dataset := { dataset with
        tags := dataset.tags ++ ["languages"]
        subnational := true
        dataset_preview := false
        custom_viz := some ((vizTemplate cname).replace " " "%20") }
      .ok (some dataset)

/-- A baseline dataset value (all metadata fields at their initial
values), used as a concrete input in the examples below. -/
def emptyDataset : Dataset :=
  { name := ""
    title := ""
    groups := []
    resources := []
    time_period := none
    methodology := none
    methodology_other := none
    notes := none
    tags := []
    subnational := false
    dataset_preview := true
    custom_viz := none }

end ClearGlobal

namespace ClearGlobal

/-! ## State dictionary lemmas -/

theorem stateFind_stateSet_self (s : List (String × Int)) (k : String)
    (v : Int) : stateFind (stateSet s k v) k = some v := by
  induction s with
  | nil => simp [stateSet, stateFind]
  | cons hd tl ih =>
    by_cases h : hd.1 = k
    · simp [stateSet, stateFind, h]
    · simp [stateSet, stateFind, h, ih]

theorem stateFind_stateSet_ne (s : List (String × Int)) (k k' : String)
    (v : Int) (h : k ≠ k') :
    stateFind (stateSet s k v) k' = stateFind s k' := by
  induction s with
  | nil => simp [stateSet, stateFind, h]
  | cons hd tl ih =>
    by_cases hk : hd.1 = k
    · simp [stateSet, stateFind, hk, h]
    · simp [stateSet, stateFind, hk, ih]

theorem get_locationsAux_isSome_ok (locs : List Location)
    (state : List (String × Int))
    (hd : (stateFind state "DEFAULT").isSome = true) :
    ∃ p, get_locationsAux locs state = .ok p := by
  induction locs generalizing state with
  | nil => exact ⟨([], state), rfl⟩
  | cons loc rest ih =>
    obtain ⟨d, hfind⟩ := Option.isSome_iff_exists.mp hd
    by_cases hlt :
        (stateFind state loc.location_code).getD d < loc.date_creation
    · have hd1 : (stateFind
          (stateSet state loc.location_code loc.date_creation)
          "DEFAULT").isSome = true := by
        by_cases hc : loc.location_code = "DEFAULT"
        · rw [hc, stateFind_stateSet_self]; rfl
        · rw [stateFind_stateSet_ne _ _ _ _ hc, hfind]; rfl
      obtain ⟨p, hp⟩ := ih _ hd1
      refine ⟨(loc.location_code :: p.1, p.2), ?_⟩
      simp [get_locationsAux, hfind, hlt, hp]
    · obtain ⟨p, hp⟩ := ih _ hd
      refine ⟨p, ?_⟩
      simp [get_locationsAux, hfind, hlt, hp]

/-- C10: `get_locations` reads `state["DEFAULT"]` for every location
returned by the remote index (Python evaluates the default argument of
`state.get` eagerly), so with `"DEFAULT"` absent and at least one
location it fails with a missing-key error — even when every location
already has its own stored watermark — while with `"DEFAULT"` present
every state lookup succeeds and the run returns a result. -/
theorem get_locations_default_eager (state : List (String × Int))
    (locs : List Location) :
    (stateFind state "DEFAULT" = none → locs ≠ [] →
      get_locations (some locs) state = .error "KeyError: DEFAULT") ∧
    ((stateFind state "DEFAULT").isSome = true →
      ∃ p, get_locations (some locs) state = .ok p) := by
  constructor
  · intro hnone hne
    match locs with
    | [] => exact absurd rfl hne
    | loc :: rest => simp [get_locations, get_locationsAux, hnone]
  · intro hd
    exact get_locationsAux_isSome_ok locs state hd

theorem get_locations_default_eager_witness :
    (stateFind [("AFG", (3 : Int))] "DEFAULT" = none ∧
      ([⟨"AFG", 5⟩] : List Location) ≠ [] ∧
      get_locations (some [⟨"AFG", 5⟩]) [("AFG", (3 : Int))] =
        .error "KeyError: DEFAULT") ∧
    ((stateFind [("DEFAULT", (0 : Int))] "DEFAULT").isSome = true ∧
      ∃ p, get_locations (some [⟨"AFG", 5⟩]) [("DEFAULT", (0 : Int))] =
        .ok p) :=
  ⟨⟨rfl, by decide,
    (get_locations_default_eager [("AFG", (3 : Int))] [⟨"AFG", 5⟩]).1 rfl
      (by decide)⟩,
   ⟨rfl,
    (get_locations_default_eager [("DEFAULT", (0 : Int))] [⟨"AFG", 5⟩]).2
      rfl⟩⟩

/-- C9 counterexample: a response with a missing `"data"` member makes
`get_locations` raise a missing-key error instead of returning an empty
changed-location list, even though the state contains `"DEFAULT"`. -/
theorem get_locations_missing_data_counterexample :
    get_locations none [("DEFAULT", (0 : Int))] = .error "KeyError: data" :=
  rfl

/-- C9 (amended): with `"DEFAULT"` present in the state, an empty result
set from the remote yields an empty changed-location list (and the state
untouched) without an error, but a response missing the `"data"` member
raises a missing-key error. -/
theorem get_locations_empty_or_missing (state : List (String × Int))
    (hd : (stateFind state "DEFAULT").isSome = true) :
    get_locations (some []) state = .ok ([], state) ∧
    get_locations none state = .error "KeyError: data" :=
  ⟨rfl, rfl⟩

theorem get_locations_empty_or_missing_witness :
    (stateFind [("DEFAULT", (7 : Int))] "DEFAULT").isSome = true ∧
    get_locations (some []) [("DEFAULT", (7 : Int))] =
      .ok ([], [("DEFAULT", (7 : Int))]) ∧
    get_locations none [("DEFAULT", (7 : Int))] =
      .error "KeyError: data" :=
  ⟨rfl, (get_locations_empty_or_missing [("DEFAULT", (7 : Int))] rfl).1,
    (get_locations_empty_or_missing [("DEFAULT", (7 : Int))] rfl).2⟩

/-- C8: when the country registry cannot resolve the identifier
(`add_country_location` raises `HDXError`), `generate_dataset` logs and
returns `None`: the result is `.ok none`, not an `.error`, so the failure
does not propagate past the per-country boundary. -/
theorem generate_dataset_unknown_country (registry : String → Option String)
    (slug : String → String) (fetch : Nat → List Row)
    (notesTemplate : String → String → String)
    (vizTemplate : String → String) (iso3 : String)
    (h : registry iso3 = none) :
    generate_dataset registry slug fetch notesTemplate vizTemplate iso3 =
      .ok none := by
  simp [generate_dataset, h]

theorem generate_dataset_unknown_country_witness :
    ((fun _ : String => (none : Option String)) "XYZ" = none) ∧
    generate_dataset (fun _ => none) (fun s => s) (fun _ => [])
      (fun _ _ => "") (fun _ => "") "XYZ" = .ok none :=
  ⟨rfl, generate_dataset_unknown_country (fun _ => none) (fun s => s)
    (fun _ => []) (fun _ _ => "") (fun _ => "") "XYZ" rfl⟩

/-- C2 (code behaviour at the failing input): for a country whose three
aggregation levels all yield zero rows, `generate_dataset` still returns
a dataset — with an empty resource list — because it ignores the `None`
that `add_resources` returns to signal "no data".  The claim (and the
spec's invariant that a published dataset has at least one resource)
says no dataset should be produced. -/
theorem generate_dataset_no_data_still_some :
    (generate_dataset (fun _ => some "Testland") (fun s => s)
        (fun _ => []) (fun _ _ => "notes") (fun _ => "viz") "TST").map
        (fun o => o.map Dataset.resources) = .ok (some []) ∧
    generate_dataset (fun _ => some "Testland") (fun s => s)
        (fun _ => []) (fun _ _ => "notes") (fun _ => "viz") "TST" ≠
      .ok none := by
  constructor
  · rfl
  · intro h
    have h1 : (generate_dataset (fun _ => some "Testland") (fun s => s)
        (fun _ => []) (fun _ _ => "notes") (fun _ => "viz") "TST").map
        (fun o => o.map Dataset.resources) = .ok (some []) := rfl
    rw [h] at h1
    simp [Except.map] at h1

end ClearGlobal

namespace ClearGlobal

/-! ## C1: change detection -/

theorem get_locationsAux_spec (locs : List Location)
    (state : List (String × Int)) (d : Int)
    (hd : stateFind state "DEFAULT" = some d)
    (hnd : ∀ loc ∈ locs, loc.location_code ≠ "DEFAULT")
    (hnodup : (locs.map Location.location_code).Nodup) :
    ∃ st,
      get_locationsAux locs state =
        .ok ((locs.filter (fun loc =>
          decide ((stateFind state loc.location_code).getD d <
            loc.date_creation))).map Location.location_code, st) ∧
      (∀ loc ∈ locs,
        (stateFind state loc.location_code).getD d < loc.date_creation →
          stateFind st loc.location_code = some loc.date_creation) ∧
      (∀ k : String,
        (∀ loc ∈ locs,
          ¬((stateFind state loc.location_code).getD d <
              loc.date_creation) ∨ loc.location_code ≠ k) →
        stateFind st k = stateFind state k) := by
  induction locs generalizing state with
  | nil =>
    refine ⟨state, by simp [get_locationsAux], by simp, fun k _ => rfl⟩
  | cons loc rest ih =>
    have hc : loc.location_code ≠ "DEFAULT" := hnd loc (List.mem_cons_self _ _)
    have hnd2 : ∀ l ∈ rest, l.location_code ≠ "DEFAULT" :=
      fun l hl => hnd l (List.mem_cons_of_mem _ hl)
    have hnodup2 : (rest.map Location.location_code).Nodup :=
      (List.nodup_cons.mp hnodup).2
    have hhead : loc.location_code ∉ rest.map Location.location_code :=
      (List.nodup_cons.mp hnodup).1
    have hne : ∀ l ∈ rest, l.location_code ≠ loc.location_code := by
      intro l hl heq
      exact hhead (heq ▸ List.mem_map_of_mem Location.location_code hl)
    by_cases hlt :
        (stateFind state loc.location_code).getD d < loc.date_creation
    · have hd1 : stateFind
          (stateSet state loc.location_code loc.date_creation)
          "DEFAULT" = some d := by
        rw [stateFind_stateSet_ne _ _ _ _ hc]; exact hd
      have hfindeq : ∀ l ∈ rest,
          stateFind (stateSet state loc.location_code loc.date_creation)
            l.location_code = stateFind state l.location_code := by
        intro l hl
        exact stateFind_stateSet_ne _ _ _ _ (Ne.symm (hne l hl))
      obtain ⟨st, hrun, hupd, hkeep⟩ := ih _ hd1 hnd2 hnodup2
      have hfilter : rest.filter (fun l =>
            decide ((stateFind
              (stateSet state loc.location_code loc.date_creation)
              l.location_code).getD d < l.date_creation)) =
          rest.filter (fun l =>
            decide ((stateFind state l.location_code).getD d <
              l.date_creation)) :=
        List.filter_congr (fun l hl => by rw [hfindeq l hl])
      refine ⟨st, ?_, ?_, ?_⟩
      · rw [hfilter] at hrun
        simp [get_locationsAux, hd, hlt, hrun, List.filter_cons]
      · intro l hl hlt2
        rcases List.mem_cons.mp hl with h | h
        · subst h
          have hk := hkeep l.location_code (fun l2 hl2 => Or.inr (hne l2 hl2))
          rw [hk, stateFind_stateSet_self]
        · exact hupd l h (by rw [hfindeq l h]; exact hlt2)
      · intro k hk
        have hkloc : loc.location_code ≠ k := by
          rcases hk loc (List.mem_cons_self _ _) with h | h
          · exact absurd hlt h
          · exact h
        have hst1 := hkeep k (fun l hl => by
          rcases hk l (List.mem_cons_of_mem _ hl) with h | h
          · exact Or.inl (by rw [hfindeq l hl]; exact h)
          · exact Or.inr h)
        rw [hst1, stateFind_stateSet_ne _ _ _ _ hkloc]
    · obtain ⟨st, hrun, hupd, hkeep⟩ := ih _ hd hnd2 hnodup2
      refine ⟨st, ?_, ?_, ?_⟩
      · simp [get_locationsAux, hd, hlt, hrun, List.filter_cons]
      · intro l hl hlt2
        rcases List.mem_cons.mp hl with h | h
        · exact absurd (h ▸ hlt2) hlt
        · exact hupd l h hlt2
      · intro k hk
        exact hkeep k (fun l hl => hk l (List.mem_cons_of_mem _ hl))

/-- C1: with `"DEFAULT"` present in the state, the remote index returning
each location code at most once and never the literal code `"DEFAULT"`,
`get_locations` returns exactly the codes of the locations whose
`date_creation` is strictly greater than `state[identifier]` (falling
back to `state["DEFAULT"]` when the identifier is absent), in the order
the remote returned them; each returned identifier's watermark is set to
exactly that remote timestamp, and every other key of the state is left
unchanged. -/
theorem get_locations_spec (locs : List Location)
    (state : List (String × Int)) (d : Int)
    (hd : stateFind state "DEFAULT" = some d)
    (hnd : ∀ loc ∈ locs, loc.location_code ≠ "DEFAULT")
    (hnodup : (locs.map Location.location_code).Nodup) :
    ∃ st,
      get_locations (some locs) state =
        .ok ((locs.filter (fun loc =>
          decide ((stateFind state loc.location_code).getD d <
            loc.date_creation))).map Location.location_code, st) ∧
      (∀ loc ∈ locs,
        (stateFind state loc.location_code).getD d < loc.date_creation →
          stateFind st loc.location_code = some loc.date_creation) ∧
      (∀ k : String,
        (∀ loc ∈ locs,
          ¬((stateFind state loc.location_code).getD d <
              loc.date_creation) ∨ loc.location_code ≠ k) →
        stateFind st k = stateFind state k) :=
  get_locationsAux_spec locs state d hd hnd hnodup

theorem get_locations_spec_witness :
    (stateFind [("DEFAULT", (10 : Int)), ("AAA", 50)] "DEFAULT" =
      some 10) ∧
    (∀ loc ∈ ([⟨"AAA", 40⟩, ⟨"BBB", 60⟩, ⟨"CCC", 5⟩] : List Location),
      loc.location_code ≠ "DEFAULT") ∧
    (([⟨"AAA", 40⟩, ⟨"BBB", 60⟩, ⟨"CCC", 5⟩] : List Location).map
      Location.location_code).Nodup ∧
    ∃ st,
      get_locations
          (some [⟨"AAA", 40⟩, ⟨"BBB", 60⟩, ⟨"CCC", 5⟩])
          [("DEFAULT", (10 : Int)), ("AAA", 50)] =
        .ok ((([⟨"AAA", 40⟩, ⟨"BBB", 60⟩, ⟨"CCC", 5⟩] :
            List Location).filter (fun loc =>
          decide ((stateFind [("DEFAULT", (10 : Int)), ("AAA", 50)]
            loc.location_code).getD 10 <
            loc.date_creation))).map Location.location_code, st) ∧
      (∀ loc ∈ ([⟨"AAA", 40⟩, ⟨"BBB", 60⟩, ⟨"CCC", 5⟩] : List Location),
        (stateFind [("DEFAULT", (10 : Int)), ("AAA", 50)]
            loc.location_code).getD 10 < loc.date_creation →
          stateFind st loc.location_code = some loc.date_creation) ∧
      (∀ k : String,
        (∀ loc ∈ ([⟨"AAA", 40⟩, ⟨"BBB", 60⟩, ⟨"CCC", 5⟩] : List Location),
          ¬((stateFind [("DEFAULT", (10 : Int)), ("AAA", 50)]
              loc.location_code).getD 10 < loc.date_creation) ∨
            loc.location_code ≠ k) →
        stateFind st k =
          stateFind [("DEFAULT", (10 : Int)), ("AAA", 50)] k) :=
  ⟨rfl, by decide, by decide,
    get_locations_spec [⟨"AAA", 40⟩, ⟨"BBB", 60⟩, ⟨"CCC", 5⟩]
      [("DEFAULT", (10 : Int)), ("AAA", 50)] 10 rfl (by decide) (by decide)⟩

end ClearGlobal

namespace ClearGlobal

/-! ## C3, C7: paging -/

theorem get_pagesAux_spec (pages : Nat → List Row) (k : Nat) :
    ∀ (p fuel : Nat), (pages (p + k)).length ≠ 500 →
    (∀ j, j < k → (pages (p + j)).length = 500) →
    k < fuel →
    get_pagesAux pages fuel p =
      (((List.range (k + 1)).map (fun i => pages (p + i))).flatten,
        k + 1) := by
  induction k with
  | zero =>
    intro p fuel hk _ hfuel
    match fuel, hfuel with
    | f + 1, _ =>
      have hcond : (pages p).length ≠ 500 ∨ (pages p).length = 0 :=
        Or.inl (by simpa using hk)
      simp only [get_pagesAux]
      rw [if_pos hcond]
      have h1 : List.range 1 = [0] := rfl
      simp [h1]
  | succ k ih =>
    intro p fuel hk hmin hfuel
    match fuel, hfuel with
    | f + 1, hfuel =>
      have h0 : (pages p).length = 500 := by
        simpa using hmin 0 (Nat.succ_pos k)
      have hcond : ¬((pages p).length ≠ 500 ∨ (pages p).length = 0) := by
        simp [h0]
      have hrec := ih (p + 1) f
        (by
          have he : p + 1 + k = p + (k + 1) := by omega
          rw [he]; exact hk)
        (by
          intro j hj
          have he : p + 1 + j = p + (j + 1) := by omega
          rw [he]; exact hmin (j + 1) (by omega))
        (by omega)
      have h2 : List.map ((fun i => pages (p + i)) ∘ Nat.succ)
            (List.range (k + 1)) =
          List.map (fun i => pages (p + 1 + i)) (List.range (k + 1)) :=
        List.map_congr_left (fun i _ => by
          show pages (p + (i + 1)) = pages (p + 1 + i)
          congr 1
          omega)
      have hshift : ((List.range (k + 1 + 1)).map
            (fun i => pages (p + i))).flatten =
          pages p ++ ((List.range (k + 1)).map
            (fun i => pages (p + 1 + i))).flatten := by
        rw [List.range_succ_eq_map, List.map_cons, List.map_map,
          List.flatten_cons, h2]
        simp
      simp only [get_pagesAux]
      rw [if_neg hcond, hrec, hshift]

/-- C3: `get_pages` requests page 0 first and keeps requesting successive
pages exactly while the most recently returned page has exactly 500 rows:
if page `k` is the first page with a length other than 500, exactly
`k + 1` requests are made and the result is the concatenation of pages
`0 … k` in page order. -/
theorem get_pages_spec (pages : Nat → List Row) (k fuel : Nat)
    (hk : (pages k).length ≠ 500)
    (hmin : ∀ j, j < k → (pages j).length = 500)
    (hfuel : k < fuel) :
    get_pages pages fuel =
      (((List.range (k + 1)).map pages).flatten, k + 1) := by
  have h := get_pagesAux_spec pages k 0 fuel (by simpa using hk)
    (fun j hj => by simpa using hmin j hj) hfuel
  simpa [get_pages] using h

theorem get_pages_spec_witness :
    (((fun n => if n = 0 then List.replicate 500 (⟨"s", 0, "very_high"⟩ : Row)
        else if n = 1 then List.replicate 500 ⟨"s", 0, "very_high"⟩
        else if n = 2 then List.replicate 237 ⟨"s", 0, "very_high"⟩
        else []) 2).length ≠ 500 ∧
      (∀ j, j < 2 → ((fun n =>
        if n = 0 then List.replicate 500 (⟨"s", 0, "very_high"⟩ : Row)
        else if n = 1 then List.replicate 500 ⟨"s", 0, "very_high"⟩
        else if n = 2 then List.replicate 237 ⟨"s", 0, "very_high"⟩
        else []) j).length = 500) ∧ 2 < 3 ∧
      get_pages (fun n =>
        if n = 0 then List.replicate 500 (⟨"s", 0, "very_high"⟩ : Row)
        else if n = 1 then List.replicate 500 ⟨"s", 0, "very_high"⟩
        else if n = 2 then List.replicate 237 ⟨"s", 0, "very_high"⟩
        else []) 3 =
        (((List.range 3).map (fun n =>
          if n = 0 then List.replicate 500 (⟨"s", 0, "very_high"⟩ : Row)
          else if n = 1 then List.replicate 500 ⟨"s", 0, "very_high"⟩
          else if n = 2 then List.replicate 237 ⟨"s", 0, "very_high"⟩
          else [])).flatten, 3) ∧
      (((List.range 3).map (fun n =>
        if n = 0 then List.replicate 500 (⟨"s", 0, "very_high"⟩ : Row)
        else if n = 1 then List.replicate 500 ⟨"s", 0, "very_high"⟩
        else if n = 2 then List.replicate 237 ⟨"s", 0, "very_high"⟩
        else [])).flatten).length = 1237) ∧
    (((fun _ : Nat => ([] : List Row)) 0).length ≠ 500 ∧ 0 < 1 ∧
      get_pages (fun _ => ([] : List Row)) 1 = ([], 1)) := by
  refine ⟨⟨by simp, ?_, by omega, ?_, ?_⟩, by simp, by omega, ?_⟩
  · intro j hj
    interval_cases j <;> simp
  · exact get_pages_spec _ 2 3 (by simp)
      (fun j hj => by interval_cases j <;> simp) (by omega)
  · have hr : List.range 3 = [0, 1, 2] := by decide
    rw [hr]
    simp [List.length_replicate]
  · have h := get_pages_spec (fun _ : Nat => ([] : List Row)) 0 1
      (by simp) (fun j hj => absurd hj (Nat.not_lt_zero j)) (by omega)
    simpa using h

theorem flatten_pagesOf (n : Nat) : ∀ rows : List Row,
    ((List.range n).map (fun i => (rows.drop (500 * i)).take 500)).flatten =
      rows.take (500 * n) := by
  induction n with
  | zero => intro rows; simp
  | succ n ih =>
    intro rows
    have h2 : List.map ((fun i => (rows.drop (500 * i)).take 500) ∘
          Nat.succ) (List.range n) =
        List.map (fun i => ((rows.drop 500).drop (500 * i)).take 500)
          (List.range n) :=
      List.map_congr_left (fun i _ => by
        show (rows.drop (500 * (i + 1))).take 500 =
          ((rows.drop 500).drop (500 * i)).take 500
        rw [List.drop_drop]
        congr 2
        omega)
    rw [List.range_succ_eq_map, List.map_cons, List.map_map,
      List.flatten_cons, h2, ih (rows.drop 500)]
    have h3 : 500 * (n + 1) = 500 + 500 * n := by ring
    rw [h3, List.take_add]
    simp

/-- C7: for a remote holding the finite row list `rows` (page `n` being
rows `500*n … 500*n+499`), the paging loop terminates: any fuel of at
least `rows.length / 500 + 1` yields all the rows with exactly
`rows.length / 500 + 1` page requests — so the number of requests is
bounded by the true row count divided by 500 plus one, and an empty
remote (zero-row first page) returns after a single request. -/
theorem get_pages_terminates (rows : List Row) (fuel : Nat)
    (hfuel : rows.length / 500 + 1 ≤ fuel) :
    get_pages (pagesOf rows) fuel = (rows, rows.length / 500 + 1) := by
  have hk : (pagesOf rows (rows.length / 500)).length ≠ 500 := by
    simp only [pagesOf, List.length_take, List.length_drop]
    omega
  have hmin : ∀ j, j < rows.length / 500 →
      (pagesOf rows j).length = 500 := by
    intro j hj
    simp only [pagesOf, List.length_take, List.length_drop]
    omega
  have h := get_pages_spec (pagesOf rows) (rows.length / 500) fuel hk hmin
    (by omega)
  rw [h]
  have hflat : ((List.range (rows.length / 500 + 1)).map
      (pagesOf rows)).flatten =
      rows.take (500 * (rows.length / 500 + 1)) := by
    have hpf := flatten_pagesOf (rows.length / 500 + 1) rows
    simpa [pagesOf] using hpf
  rw [hflat, List.take_of_length_le (by omega)]

theorem get_pages_terminates_witness :
    (([] : List Row).length / 500 + 1 ≤ 1 ∧
      get_pages (pagesOf []) 1 = ([], ([] : List Row).length / 500 + 1)) ∧
    (([⟨"a", 1, "high"⟩, ⟨"b", 2, "low"⟩] : List Row).length / 500 + 1 ≤ 5 ∧
      get_pages (pagesOf [⟨"a", 1, "high"⟩, ⟨"b", 2, "low"⟩]) 5 =
        ([⟨"a", 1, "high"⟩, ⟨"b", 2, "low"⟩],
          ([⟨"a", 1, "high"⟩, ⟨"b", 2, "low"⟩] : List Row).length / 500
            + 1)) :=
  ⟨⟨by decide, get_pages_terminates [] 1 (by decide)⟩,
   ⟨by decide, get_pages_terminates [⟨"a", 1, "high"⟩, ⟨"b", 2, "low"⟩] 5
      (by decide)⟩⟩

end ClearGlobal

namespace ClearGlobal

/-! ## add_resources: loop lemmas -/

theorem mem_addSet {α : Type} [DecidableEq α] (t : List α) (x y : α) :
    y ∈ addSet t x ↔ y ∈ t ∨ y = x := by
  by_cases h : x ∈ t
  · simp only [addSet, if_pos h]
    constructor
    · exact Or.inl
    · rintro (hy | rfl)
      · exact hy
      · exact h
  · simp [addSet, if_neg h]

theorem foldl_processLevel_resources (fetch : Nat → List Row)
    (iso3 : String) (levels : List Nat) :
    ∀ st : Agg × List Resource × Bool,
      (levels.foldl (processLevel fetch iso3) st).2.1 =
        st.2.1 ++ (levels.filter (fun l => !(fetch l).isEmpty)).map
          (fun l => mkResource iso3 l (fetch l)) := by
  induction levels with
  | nil => intro st; simp
  | cons l ls ih =>
    intro st
    by_cases h : fetch l = []
    · have hemp : ((fetch l).isEmpty : Bool) = true := by
        simp [h]
      simp [processLevel, h, List.filter_cons, hemp, ih]
    · have hemp : ((fetch l).isEmpty : Bool) = false := by
        simp [List.isEmpty_iff, h]
      simp only [List.foldl_cons, processLevel, if_neg h]
      rw [ih]
      simp [List.filter_cons, hemp]

theorem foldl_processLevel_flag (fetch : Nat → List Row) (iso3 : String)
    (levels : List Nat) :
    ∀ st : Agg × List Resource × Bool,
      (levels.foldl (processLevel fetch iso3) st).2.2 =
        (st.2.2 || levels.any (fun l => !(fetch l).isEmpty)) := by
  induction levels with
  | nil => intro st; simp
  | cons l ls ih =>
    intro st
    by_cases h : fetch l = []
    · have hemp : ((fetch l).isEmpty : Bool) = true := by
        simp [h]
      simp [processLevel, h, ih, hemp]
    · have hemp : ((fetch l).isEmpty : Bool) = false := by
        simp [List.isEmpty_iff, h]
      simp only [List.foldl_cons, processLevel, if_neg h]
      rw [ih]
      simp [hemp]

theorem foldl_processLevel_agg (fetch : Nat → List Row) (iso3 : String)
    (levels : List Nat) :
    ∀ st : Agg × List Resource × Bool,
      (levels.foldl (processLevel fetch iso3) st).1 =
        ((levels.map fetch).flatten).foldl foldRow st.1 := by
  induction levels with
  | nil => intro st; simp
  | cons l ls ih =>
    intro st
    by_cases h : fetch l = []
    · simp [processLevel, h, ih]
    · simp only [List.foldl_cons, processLevel, if_neg h, List.map_cons,
        List.flatten_cons, List.foldl_append]
      rw [ih]

theorem any_levels_iff (fetch : Nat → List Row) (levels : List Nat) :
    (levels.any (fun l => !(fetch l).isEmpty) = true) ↔
      (levels.map fetch).flatten ≠ [] := by
  simp only [List.any_eq_true, Bool.not_eq_true', List.isEmpty_eq_false,
    ne_eq, List.flatten_eq_nil_iff]
  constructor
  · rintro ⟨l, hl, hne⟩ hall
    exact hne (hall (fetch l) (List.mem_map_of_mem fetch hl))
  · intro h
    by_contra hc
    push_neg at hc
    exact h (by
      intro xs hxs
      obtain ⟨l, hl, rfl⟩ := List.mem_map.mp hxs
      by_contra hxe
      exact hxe (hc l hl))

theorem foldl_ratings_mem (rows : List Row) :
    ∀ (a : Agg) (q : String),
      q ∈ (rows.foldl foldRow a).rep_rating_strs ↔
        q ∈ a.rep_rating_strs ∨ ∃ r ∈ rows, r.representivity_rating = q := by
  induction rows with
  | nil => intro a q; simp
  | cons r rest ih =>
    intro a q
    rw [List.foldl_cons, ih]
    simp only [foldRow, mem_addSet]
    constructor
    · rintro ((hq | hq) | hq)
      · exact Or.inl hq
      · exact Or.inr ⟨r, List.mem_cons_self _ _, hq.symm⟩
      · obtain ⟨r2, hr2, he⟩ := hq
        exact Or.inr ⟨r2, List.mem_cons_of_mem _ hr2, he⟩
    · rintro (hq | ⟨r2, hr2, he⟩)
      · exact Or.inl (Or.inl hq)
      · rcases List.mem_cons.mp hr2 with h2 | h2
        · exact Or.inl (Or.inr (h2 ▸ he.symm))
        · exact Or.inr ⟨r2, h2, he⟩

theorem foldl_sources_mem (rows : List Row) :
    ∀ (a : Agg) (s : String),
      s ∈ (rows.foldl foldRow a).dataset_sources ↔
        s ∈ a.dataset_sources ∨ ∃ r ∈ rows, r.source = s := by
  induction rows with
  | nil => intro a s; simp
  | cons r rest ih =>
    intro a s
    rw [List.foldl_cons, ih]
    simp only [foldRow, mem_addSet]
    constructor
    · rintro ((hs | hs) | hs)
      · exact Or.inl hs
      · exact Or.inr ⟨r, List.mem_cons_self _ _, hs.symm⟩
      · obtain ⟨r2, hr2, he⟩ := hs
        exact Or.inr ⟨r2, List.mem_cons_of_mem _ hr2, he⟩
    · rintro (hs | ⟨r2, hr2, he⟩)
      · exact Or.inl (Or.inl hs)
      · rcases List.mem_cons.mp hr2 with h2 | h2
        · exact Or.inl (Or.inr (h2 ▸ he.symm))
        · exact Or.inr ⟨r2, h2, he⟩

theorem aggOf_ratings_ne_nil (fetch : Nat → List Row)
    (hne : allRows fetch ≠ []) :
    (aggOf fetch).rep_rating_strs ≠ [] := by
  match hrows : allRows fetch, hne with
  | r :: rest, _ =>
    have hq : r.representivity_rating ∈ (aggOf fetch).rep_rating_strs := by
      rw [aggOf, hrows, foldl_ratings_mem]
      exact Or.inr ⟨r, List.mem_cons_self _ _, rfl⟩
    intro hnil
    rw [hnil] at hq
    exact List.not_mem_nil _ hq

/-- The success path of `add_resources` in closed form: with at least one
row across the levels and a successful methodology derivation, the
returned dataset is the input dataset extended with one resource per
non-empty level, the time period, the methodology fields and the notes,
and the Python return value is `None`. -/
theorem add_resources_success_shape (fetch : Nat → List Row)
    (iso3 cname : String) (tmpl : String → String → String) (d : Dataset)
    (hne : allRows fetch ≠ []) (m : String) (mo : Option String)
    (hm : methodology_fields (aggOf fetch).rep_rating_strs = .ok (m, mo)) :
    add_resources fetch iso3 cname tmpl d = .ok ({ d with
      resources := d.resources ++
        (([0, 1, 2] : List Nat).filter (fun l => !(fetch l).isEmpty)).map
          (fun l => mkResource iso3 l (fetch l))
      time_period := some ((aggOf fetch).earliest_start_date,
        (aggOf fetch).latest_end_date)
      methodology := some m
      methodology_other := mo
      notes := some (tmpl cname
        (String.intercalate ", " (aggOf fetch).dataset_sources)) },
      none) := by
  have hflag : (([0, 1, 2] : List Nat).foldl (processLevel fetch iso3)
      (initAgg, [], false)).2.2 = true := by
    rw [foldl_processLevel_flag]
    simp only [Bool.false_or]
    exact (any_levels_iff fetch [0, 1, 2]).mpr hne
  have hagg : (([0, 1, 2] : List Nat).foldl (processLevel fetch iso3)
      (initAgg, [], false)).1 = aggOf fetch := by
    rw [foldl_processLevel_agg]
    rfl
  have hres : (([0, 1, 2] : List Nat).foldl (processLevel fetch iso3)
      (initAgg, [], false)).2.1 =
      (([0, 1, 2] : List Nat).filter (fun l => !(fetch l).isEmpty)).map
        (fun l => mkResource iso3 l (fetch l)) := by
    rw [foldl_processLevel_resources]
    rfl
  have hrat : ¬(aggOf fetch).rep_rating_strs.length = 0 := by
    simp only [List.length_eq_zero]
    exact aggOf_ratings_ne_nil fetch hne
  simp only [add_resources, hflag, hagg, hres, hrat, hm]
  simp

end ClearGlobal

namespace ClearGlobal

/-! ## C5: resource emission -/

theorem mkResource_eq (iso3 : String) (l : Nat) (data : List Row) :
    mkResource iso3 l data =
      { name := "clearglobal_language_use_" ++ iso3 ++ "_admin" ++
          toString l ++ ".csv"
        description := "Languages used in " ++ iso3 ++
          (if l = 0 then "" else " by Admin " ++ toString l)
        p_coded := decide (l ≠ 0)
        rows := data } := by
  by_cases h : l = 0
  · subst h
    simp [mkResource]
  · simp [mkResource, h]

/-- C5 counterexample: for country code `"BEN"` with country name
`"Benin"`, the emitted level-0 resource description is
`"Languages used in BEN"` — built from the ISO3 code — and not
`"Languages used in Benin"`, the text the claim prescribes
(`"Languages used in <country-name>"`). -/
theorem add_resources_description_counterexample :
    (add_resources
        (fun l => if l = 0 then [⟨"src", 3, "very_high"⟩] else [])
        "BEN" "Benin" (fun _ _ => "") emptyDataset).map
        (fun p => p.1.resources.map Resource.description) =
      .ok ["Languages used in BEN"] ∧
    ("Languages used in BEN" : String) ≠ "Languages used in Benin" :=
  ⟨rfl, by decide⟩

/-- C5 (amended): on any (non-`KeyError`) run of `add_resources`, a
resource is emitted for an aggregation level exactly when that level
produced at least one row, and the emitted resource has file name
`clearglobal_language_use_<country>_admin<level>.csv`, description
`"Languages used in <country ISO3 code>"` — the ISO3 code, not the
country display name — with `" by Admin <level>"` appended for levels 1
and 2, and a p-coded flag that is false for level 0 and true for levels
1 and 2. -/
theorem add_resources_resource_emission (fetch : Nat → List Row)
    (iso3 cname : String) (tmpl : String → String → String)
    (d d' : Dataset) (rv : Option Int)
    (h : add_resources fetch iso3 cname tmpl d = .ok (d', rv)) :
    d'.resources = d.resources ++
      (([0, 1, 2] : List Nat).filter (fun l => !(fetch l).isEmpty)).map
        (fun l =>
          { name := "clearglobal_language_use_" ++ iso3 ++ "_admin" ++
              toString l ++ ".csv"
            description := "Languages used in " ++ iso3 ++
              (if l = 0 then "" else " by Admin " ++ toString l)
            p_coded := decide (l ≠ 0)
            rows := fetch l }) := by
  have hres := foldl_processLevel_resources fetch iso3 [0, 1, 2]
    (initAgg, [], false)
  simp only [List.nil_append] at hres
  have hmap : (([0, 1, 2] : List Nat).filter
        (fun l => !(fetch l).isEmpty)).map
        (fun l => mkResource iso3 l (fetch l)) =
      (([0, 1, 2] : List Nat).filter (fun l => !(fetch l).isEmpty)).map
        (fun l =>
          ({ name := "clearglobal_language_use_" ++ iso3 ++ "_admin" ++
              toString l ++ ".csv"
             description := "Languages used in " ++ iso3 ++
               (if l = 0 then "" else " by Admin " ++ toString l)
             p_coded := decide (l ≠ 0)
             rows := fetch l } : Resource)) :=
    List.map_congr_left (fun l _ => mkResource_eq iso3 l (fetch l))
  simp only [add_resources] at h
  split at h
  · simp only [Except.ok.injEq, Prod.mk.injEq] at h
    rw [← h.1, hres, hmap]
  · split at h
    · simp only [Except.ok.injEq, Prod.mk.injEq] at h
      rw [← h.1, hres, hmap]
    · split at h
      · exact absurd h (by simp)
      · simp only [Except.ok.injEq, Prod.mk.injEq] at h
        rw [← h.1, hres, hmap]

theorem add_resources_resource_emission_witness :
    (add_resources
        (fun l => if l = 0 then [⟨"src", 3, "very_high"⟩] else [])
        "BEN" "Benin" (fun _ _ => "") emptyDataset =
      .ok ({ emptyDataset with
        resources := [⟨"clearglobal_language_use_BEN_admin0.csv",
          "Languages used in BEN", false, [⟨"src", 3, "very_high"⟩]⟩]
        time_period := some (3, 3)
        methodology := some "Census"
        methodology_other := none
        notes := some "" }, none)) ∧
    ({ emptyDataset with
        resources := [⟨"clearglobal_language_use_BEN_admin0.csv",
          "Languages used in BEN", false, [⟨"src", 3, "very_high"⟩]⟩]
        time_period := some (3, 3)
        methodology := some "Census"
        methodology_other := none
        notes := some "" } : Dataset).resources =
      emptyDataset.resources ++
        (([0, 1, 2] : List Nat).filter (fun l =>
          !((fun l => if l = 0 then
              [(⟨"src", 3, "very_high"⟩ : Row)] else []) l).isEmpty)).map
          (fun l =>
            { name := "clearglobal_language_use_" ++ "BEN" ++ "_admin" ++
                toString l ++ ".csv"
              description := "Languages used in " ++ "BEN" ++
                (if l = 0 then "" else " by Admin " ++ toString l)
              p_coded := decide (l ≠ 0)
              rows := (fun l => if l = 0 then
                [(⟨"src", 3, "very_high"⟩ : Row)] else []) l }) :=
  ⟨rfl, add_resources_resource_emission
    (fun l => if l = 0 then [⟨"src", 3, "very_high"⟩] else [])
    "BEN" "Benin" (fun _ _ => "") emptyDataset _ none rfl⟩

end ClearGlobal

namespace ClearGlobal

/-! ## C6: the aggregate -/

theorem foldRow_earliest_le (a : Agg) (r : Row) :
    (foldRow a r).earliest_start_date ≤ a.earliest_start_date := by
  simp only [foldRow]
  split <;> omega

theorem foldRow_earliest_le_row (a : Agg) (r : Row) :
    (foldRow a r).earliest_start_date ≤ r.datetime_published := by
  simp only [foldRow]
  split <;> omega

theorem foldRow_latest_ge (a : Agg) (r : Row) :
    a.latest_end_date ≤ (foldRow a r).latest_end_date := by
  simp only [foldRow]
  split <;> omega

theorem foldRow_latest_ge_row (a : Agg) (r : Row) :
    r.datetime_published ≤ (foldRow a r).latest_end_date := by
  simp only [foldRow]
  split <;> omega

theorem foldl_earliest_le_init (rows : List Row) :
    ∀ a : Agg, (rows.foldl foldRow a).earliest_start_date ≤
      a.earliest_start_date := by
  induction rows with
  | nil => intro a; simp
  | cons r rest ih =>
    intro a
    exact le_trans (ih (foldRow a r)) (foldRow_earliest_le a r)

theorem foldl_earliest_le_row (rows : List Row) :
    ∀ a : Agg, ∀ r ∈ rows,
      (rows.foldl foldRow a).earliest_start_date ≤
        r.datetime_published := by
  induction rows with
  | nil => intro a r hr; exact absurd hr (List.not_mem_nil r)
  | cons r2 rest ih =>
    intro a r hr
    rcases List.mem_cons.mp hr with h | h
    · subst h
      exact le_trans (foldl_earliest_le_init rest (foldRow a r))
        (foldRow_earliest_le_row a r)
    · exact ih (foldRow a r2) r h

theorem foldl_earliest_mem_or (rows : List Row) :
    ∀ a : Agg, (rows.foldl foldRow a).earliest_start_date =
        a.earliest_start_date ∨
      ∃ r ∈ rows, (rows.foldl foldRow a).earliest_start_date =
        r.datetime_published := by
  induction rows with
  | nil => intro a; exact Or.inl rfl
  | cons r rest ih =>
    intro a
    rcases ih (foldRow a r) with h | ⟨r2, hr2, he⟩
    · rw [List.foldl_cons, h]
      simp only [foldRow]
      split
      · exact Or.inr ⟨r, List.mem_cons_self _ _, rfl⟩
      · exact Or.inl rfl
    · exact Or.inr ⟨r2, List.mem_cons_of_mem _ hr2, he⟩

theorem foldl_latest_ge_init (rows : List Row) :
    ∀ a : Agg, a.latest_end_date ≤
      (rows.foldl foldRow a).latest_end_date := by
  induction rows with
  | nil => intro a; simp
  | cons r rest ih =>
    intro a
    exact le_trans (foldRow_latest_ge a r) (ih (foldRow a r))

theorem foldl_latest_ge_row (rows : List Row) :
    ∀ a : Agg, ∀ r ∈ rows,
      r.datetime_published ≤ (rows.foldl foldRow a).latest_end_date := by
  induction rows with
  | nil => intro a r hr; exact absurd hr (List.not_mem_nil r)
  | cons r2 rest ih =>
    intro a r hr
    rcases List.mem_cons.mp hr with h | h
    · subst h
      exact le_trans (foldRow_latest_ge_row a r)
        (foldl_latest_ge_init rest (foldRow a r))
    · exact ih (foldRow a r2) r h

theorem foldl_latest_mem_or (rows : List Row) :
    ∀ a : Agg, (rows.foldl foldRow a).latest_end_date =
        a.latest_end_date ∨
      ∃ r ∈ rows, (rows.foldl foldRow a).latest_end_date =
        r.datetime_published := by
  induction rows with
  | nil => intro a; exact Or.inl rfl
  | cons r rest ih =>
    intro a
    rcases ih (foldRow a r) with h | ⟨r2, hr2, he⟩
    · rw [List.foldl_cons, h]
      simp only [foldRow]
      split
      · exact Or.inr ⟨r, List.mem_cons_self _ _, rfl⟩
      · exact Or.inl rfl
    · exact Or.inr ⟨r2, List.mem_cons_of_mem _ hr2, he⟩

/-- The failure path of `add_resources`: with rows present but a rating
outside the `representivity_to_int` table, the `KeyError` propagates. -/
theorem add_resources_error_shape (fetch : Nat → List Row)
    (iso3 cname : String) (tmpl : String → String → String) (d : Dataset)
    (hne : allRows fetch ≠ []) (e : String)
    (hm : methodology_fields (aggOf fetch).rep_rating_strs = .error e) :
    add_resources fetch iso3 cname tmpl d = .error e := by
  have hflag : (([0, 1, 2] : List Nat).foldl (processLevel fetch iso3)
      (initAgg, [], false)).2.2 = true := by
    rw [foldl_processLevel_flag]
    simp only [Bool.false_or]
    exact (any_levels_iff fetch [0, 1, 2]).mpr hne
  have hagg : (([0, 1, 2] : List Nat).foldl (processLevel fetch iso3)
      (initAgg, [], false)).1 = aggOf fetch := by
    rw [foldl_processLevel_agg]
    rfl
  have hrat : ¬(aggOf fetch).rep_rating_strs.length = 0 := by
    simp only [List.length_eq_zero]
    exact aggOf_ratings_ne_nil fetch hne
  simp only [add_resources, hflag, hagg, hrat, hm]
  simp

/-- C6: for the union of the rows of all three aggregation levels, the
aggregate computed by `add_resources` has: earliest publication
timestamp = the minimum of the rows' publication timestamps (any real
date replaces the latest-possible sentinel `default_enddate`), latest
publication timestamp = the maximum (any real date replaces the
earliest-possible sentinel `default_date`), and distinct source labels
and distinct representativeness ratings that are exactly the unions of
those fields over the rows; a successful run records exactly this pair
as the dataset's time period. -/
theorem add_resources_aggregate (fetch : Nat → List Row)
    (hne : allRows fetch ≠ [])
    (hdates : ∀ r ∈ allRows fetch,
      default_date < r.datetime_published ∧
        r.datetime_published < default_enddate) :
    ((aggOf fetch).earliest_start_date ∈
        (allRows fetch).map Row.datetime_published ∧
      ∀ r ∈ allRows fetch,
        (aggOf fetch).earliest_start_date ≤ r.datetime_published) ∧
    ((aggOf fetch).latest_end_date ∈
        (allRows fetch).map Row.datetime_published ∧
      ∀ r ∈ allRows fetch,
        r.datetime_published ≤ (aggOf fetch).latest_end_date) ∧
    (∀ s, s ∈ (aggOf fetch).dataset_sources ↔
      ∃ r ∈ allRows fetch, r.source = s) ∧
    (∀ q, q ∈ (aggOf fetch).rep_rating_strs ↔
      ∃ r ∈ allRows fetch, r.representivity_rating = q) ∧
    (∀ (iso3 cname : String) (tmpl : String → String → String)
      (d d' : Dataset) (rv : Option Int),
      add_resources fetch iso3 cname tmpl d = .ok (d', rv) →
      d'.time_period = some ((aggOf fetch).earliest_start_date,
        (aggOf fetch).latest_end_date)) := by
  obtain ⟨r0, hr0⟩ := List.exists_mem_of_ne_nil _ hne
  refine ⟨⟨?_, ?_⟩, ⟨?_, ?_⟩, ?_, ?_, ?_⟩
  · rcases foldl_earliest_mem_or (allRows fetch) initAgg with h | ⟨r, hr, he⟩
    · exfalso
      have h1 := foldl_earliest_le_row (allRows fetch) initAgg r0 hr0
      have h2 := (hdates r0 hr0).2
      have h3 : initAgg.earliest_start_date = default_enddate := rfl
      omega
    · exact List.mem_map.mpr ⟨r, hr, he.symm⟩
  · intro r hr
    exact foldl_earliest_le_row (allRows fetch) initAgg r hr
  · rcases foldl_latest_mem_or (allRows fetch) initAgg with h | ⟨r, hr, he⟩
    · exfalso
      have h1 := foldl_latest_ge_row (allRows fetch) initAgg r0 hr0
      have h2 := (hdates r0 hr0).1
      have h3 : initAgg.latest_end_date = default_date := rfl
      omega
    · exact List.mem_map.mpr ⟨r, hr, he.symm⟩
  · intro r hr
    exact foldl_latest_ge_row (allRows fetch) initAgg r hr
  · intro s
    rw [aggOf, foldl_sources_mem]
    simp [initAgg]
  · intro q
    rw [aggOf, foldl_ratings_mem]
    simp [initAgg]
  · intro iso3 cname tmpl d d' rv h
    cases hM : methodology_fields (aggOf fetch).rep_rating_strs with
    | error e =>
      rw [add_resources_error_shape fetch iso3 cname tmpl d hne e hM] at h
      exact absurd h (by simp)
    | ok p =>
      rw [add_resources_success_shape fetch iso3 cname tmpl d hne p.1 p.2
        (by rw [hM])] at h
      simp only [Except.ok.injEq, Prod.mk.injEq] at h
      rw [← h.1]

end ClearGlobal

namespace ClearGlobal

theorem add_resources_aggregate_witness :
    (allRows (fun l => if l = 0 then [(⟨"src1", 5, "high"⟩ : Row)]
      else if l = 1 then [⟨"src2", 9, "low"⟩] else []) ≠ []) ∧
    (∀ r ∈ allRows (fun l => if l = 0 then [(⟨"src1", 5, "high"⟩ : Row)]
        else if l = 1 then [⟨"src2", 9, "low"⟩] else []),
      default_date < r.datetime_published ∧
        r.datetime_published < default_enddate) ∧
    (((aggOf (fun l => if l = 0 then [(⟨"src1", 5, "high"⟩ : Row)]
        else if l = 1 then [⟨"src2", 9, "low"⟩] else [])).earliest_start_date ∈
        (allRows (fun l => if l = 0 then [(⟨"src1", 5, "high"⟩ : Row)]
          else if l = 1 then [⟨"src2", 9, "low"⟩] else [])).map
          Row.datetime_published ∧
      ∀ r ∈ allRows (fun l => if l = 0 then [(⟨"src1", 5, "high"⟩ : Row)]
          else if l = 1 then [⟨"src2", 9, "low"⟩] else []),
        (aggOf (fun l => if l = 0 then [(⟨"src1", 5, "high"⟩ : Row)]
          else if l = 1 then [⟨"src2", 9, "low"⟩] else [])).earliest_start_date ≤
          r.datetime_published) ∧
    ((aggOf (fun l => if l = 0 then [(⟨"src1", 5, "high"⟩ : Row)]
        else if l = 1 then [⟨"src2", 9, "low"⟩] else [])).latest_end_date ∈
        (allRows (fun l => if l = 0 then [(⟨"src1", 5, "high"⟩ : Row)]
          else if l = 1 then [⟨"src2", 9, "low"⟩] else [])).map
          Row.datetime_published ∧
      ∀ r ∈ allRows (fun l => if l = 0 then [(⟨"src1", 5, "high"⟩ : Row)]
          else if l = 1 then [⟨"src2", 9, "low"⟩] else []),
        r.datetime_published ≤
          (aggOf (fun l => if l = 0 then [(⟨"src1", 5, "high"⟩ : Row)]
            else if l = 1 then [⟨"src2", 9, "low"⟩] else [])).latest_end_date) ∧
    (∀ s, s ∈ (aggOf (fun l => if l = 0 then [(⟨"src1", 5, "high"⟩ : Row)]
        else if l = 1 then [⟨"src2", 9, "low"⟩] else [])).dataset_sources ↔
      ∃ r ∈ allRows (fun l => if l = 0 then [(⟨"src1", 5, "high"⟩ : Row)]
        else if l = 1 then [⟨"src2", 9, "low"⟩] else []), r.source = s) ∧
    (∀ q, q ∈ (aggOf (fun l => if l = 0 then [(⟨"src1", 5, "high"⟩ : Row)]
        else if l = 1 then [⟨"src2", 9, "low"⟩] else [])).rep_rating_strs ↔
      ∃ r ∈ allRows (fun l => if l = 0 then [(⟨"src1", 5, "high"⟩ : Row)]
        else if l = 1 then [⟨"src2", 9, "low"⟩] else []),
        r.representivity_rating = q) ∧
    (∀ (iso3 cname : String) (tmpl : String → String → String)
      (d d' : Dataset) (rv : Option Int),
      add_resources (fun l => if l = 0 then [(⟨"src1", 5, "high"⟩ : Row)]
          else if l = 1 then [⟨"src2", 9, "low"⟩] else [])
          iso3 cname tmpl d = .ok (d', rv) →
      d'.time_period = some
        ((aggOf (fun l => if l = 0 then [(⟨"src1", 5, "high"⟩ : Row)]
          else if l = 1 then [⟨"src2", 9, "low"⟩] else [])).earliest_start_date,
         (aggOf (fun l => if l = 0 then [(⟨"src1", 5, "high"⟩ : Row)]
          else if l = 1 then [⟨"src2", 9, "low"⟩] else [])).latest_end_date))) :=
  ⟨by decide, by decide,
    add_resources_aggregate
      (fun l => if l = 0 then [(⟨"src1", 5, "high"⟩ : Row)]
        else if l = 1 then [⟨"src2", 9, "low"⟩] else [])
      (by decide) (by decide)⟩

end ClearGlobal

namespace ClearGlobal

/-! ## C4: methodology derivation -/

theorem lookupRatings_valid (l : List String)
    (h : ∀ r ∈ l, (representivity_to_int r).isSome = true) :
    lookupRatings l =
      some (l.map (fun r => (representivity_to_int r).getD 0)) := by
  induction l with
  | nil => rfl
  | cons r rest ih =>
    obtain ⟨i, hi⟩ := Option.isSome_iff_exists.mp
      (h r (List.mem_cons_self _ _))
    have hrest := ih (fun x hx => h x (List.mem_cons_of_mem _ hx))
    simp [lookupRatings, hi, hrest]

theorem lookupRatings_eq_none (l : List String) :
    lookupRatings l = none ↔
      ∃ r ∈ l, representivity_to_int r = none := by
  induction l with
  | nil => simp [lookupRatings]
  | cons r rest ih =>
    cases hr : representivity_to_int r with
    | none =>
      simp only [lookupRatings, hr]
      constructor
      · intro _
        exact ⟨r, List.mem_cons_self _ _, hr⟩
      · intro _
        trivial
    | some i =>
      cases hrest : lookupRatings rest with
      | none =>
        simp only [lookupRatings, hr, hrest]
        constructor
        · intro _
          obtain ⟨x, hx, hxn⟩ := ih.mp hrest
          exact ⟨x, List.mem_cons_of_mem _ hx, hxn⟩
        · intro _
          trivial
      | some is =>
        simp only [lookupRatings, hr, hrest]
        constructor
        · intro hcon
          exact absurd hcon (by simp)
        · rintro ⟨x, hx, hxn⟩
          rcases List.mem_cons.mp hx with h1 | h1
          · rw [h1] at hxn
            rw [hxn] at hr
            cases hr
          · have h2 := ih.mpr ⟨x, h1, hxn⟩
            rw [h2] at hrest
            cases hrest

theorem sortNats_perm_eq {l1 l2 : List Nat} (h : l1.Perm l2) :
    sortNats l1 = sortNats l2 :=
  List.eq_of_perm_of_sorted
    ((List.perm_insertionSort _ l1).trans
      (h.trans (List.perm_insertionSort _ l2).symm))
    (List.sorted_insertionSort _ l1) (List.sorted_insertionSort _ l2)

theorem methodology_fields_perm (l1 l2 : List String) (h : l1.Perm l2) :
    methodology_fields l1 = methodology_fields l2 := by
  by_cases hv : ∀ r ∈ l1, (representivity_to_int r).isSome = true
  · have hv2 : ∀ r ∈ l2, (representivity_to_int r).isSome = true :=
      fun r hr => hv r (h.symm.subset hr)
    have hperm : (l1.map (fun r => (representivity_to_int r).getD 0)).Perm
        (l2.map (fun r => (representivity_to_int r).getD 0)) :=
      h.map _
    simp only [methodology_fields, lookupRatings_valid l1 hv,
      lookupRatings_valid l2 hv2, sortNats_perm_eq hperm]
  · push_neg at hv
    obtain ⟨r, hr, hn⟩ := hv
    have hrn : representivity_to_int r = none := by
      cases hx : representivity_to_int r with
      | none => rfl
      | some i => rw [hx] at hn; exact absurd rfl hn
    have he1 : lookupRatings l1 = none :=
      (lookupRatings_eq_none l1).mpr ⟨r, hr, hrn⟩
    have he2 : lookupRatings l2 = none :=
      (lookupRatings_eq_none l2).mpr ⟨r, h.subset hr, hrn⟩
    simp only [methodology_fields, he1, he2]

/-- C4: the methodology narrative is obtained by sorting the distinct
observed ratings ascending by rank and joining their texts with `"; "`,
independently of the iteration order of the set of ratings (permutation
invariance); the rating set of "high" and "low" yields the two texts
joined high-rank-first in either iteration order, "very_high" alone
yields the categorical value `"Census"` with no explanatory text, and on
a successful run the dataset's methodology fields are exactly the
derived pair. -/
theorem methodology_derivation :
    (∀ l1 l2 : List String, l1.Perm l2 →
      methodology_fields l1 = methodology_fields l2) ∧
    methodology_fields ["high", "low"] =
      .ok ("Other", some ("Representative survey at 95% confidence level and a 10% margin of error, or better; Non-representative/indicative survey")) ∧
    methodology_fields ["low", "high"] =
      .ok ("Other", some ("Representative survey at 95% confidence level and a 10% margin of error, or better; Non-representative/indicative survey")) ∧
    methodology_fields ["very_high"] = .ok ("Census", none) ∧
    (∀ (fetch : Nat → List Row) (iso3 cname : String)
      (tmpl : String → String → String) (d d' : Dataset) (rv : Option Int)
      (m : String) (mo : Option String),
      allRows fetch ≠ [] →
      add_resources fetch iso3 cname tmpl d = .ok (d', rv) →
      methodology_fields (aggOf fetch).rep_rating_strs = .ok (m, mo) →
      d'.methodology = some m ∧ d'.methodology_other = mo) := by
  refine ⟨methodology_fields_perm, rfl, rfl, rfl, ?_⟩
  intro fetch iso3 cname tmpl d d' rv m mo hne h hm
  rw [add_resources_success_shape fetch iso3 cname tmpl d hne m mo hm] at h
  simp only [Except.ok.injEq, Prod.mk.injEq] at h
  constructor
  · rw [← h.1]
  · rw [← h.1]

theorem methodology_derivation_witness :
    ((["high", "low"] : List String).Perm ["low", "high"] ∧
      methodology_fields ["high", "low"] =
        methodology_fields ["low", "high"]) ∧
    (allRows (fun l => if l = 0 then [(⟨"s", 5, "high"⟩ : Row)]
        else []) ≠ [] ∧
      add_resources (fun l => if l = 0 then [(⟨"s", 5, "high"⟩ : Row)]
          else []) "BEN" "Benin" (fun _ _ => "") emptyDataset =
        .ok ({ emptyDataset with
          resources := [⟨"clearglobal_language_use_BEN_admin0.csv",
            "Languages used in BEN", false, [⟨"s", 5, "high"⟩]⟩]
          time_period := some (5, 5)
          methodology := some "Other"
          methodology_other := some "Representative survey at 95% confidence level and a 10% margin of error, or better"
          notes := some "" }, none) ∧
      methodology_fields (aggOf (fun l =>
          if l = 0 then [(⟨"s", 5, "high"⟩ : Row)]
          else [])).rep_rating_strs =
        .ok ("Other", some "Representative survey at 95% confidence level and a 10% margin of error, or better") ∧
      (({ emptyDataset with
          resources := [⟨"clearglobal_language_use_BEN_admin0.csv",
            "Languages used in BEN", false, [⟨"s", 5, "high"⟩]⟩]
          time_period := some (5, 5)
          methodology := some "Other"
          methodology_other := some "Representative survey at 95% confidence level and a 10% margin of error, or better"
          notes := some "" } : Dataset).methodology = some "Other" ∧
        ({ emptyDataset with
          resources := [⟨"clearglobal_language_use_BEN_admin0.csv",
            "Languages used in BEN", false, [⟨"s", 5, "high"⟩]⟩]
          time_period := some (5, 5)
          methodology := some "Other"
          methodology_other := some "Representative survey at 95% confidence level and a 10% margin of error, or better"
          notes := some "" } : Dataset).methodology_other =
          some "Representative survey at 95% confidence level and a 10% margin of error, or better")) :=
  ⟨⟨by decide, methodology_derivation.1 ["high", "low"] ["low", "high"]
      (by decide)⟩,
   ⟨by decide, rfl, rfl,
    methodology_derivation.2.2.2.2
      (fun l => if l = 0 then [(⟨"s", 5, "high"⟩ : Row)] else [])
      "BEN" "Benin" (fun _ _ => "") emptyDataset _ none "Other"
      (some "Representative survey at 95% confidence level and a 10% margin of error, or better")
      (by decide) rfl rfl⟩⟩

end ClearGlobal
